import Mathlib

/-!
Shallow embedding of `src/src/modules/threads.ts` (the `Threads` API module of
js-http-client) and proofs about its request construction and response
handling.

The HTTP transport base (`sendGet`/`sendPost`/`sendPut`/`sendDelete`, from
`src/core/api`) and the `Schemas` sibling module are not part of the source
tree; they are modelled abstractly from the spec.  Each client method is
embedded as a pure function of an abstract transport (a total function from
requests to responses); alongside its result it returns the ordered list of
HTTP requests it issued, so that claims about which requests are sent can be
stated and proved.
-/

/-- A thread record, as in `src/models` (the model file is not in the tree;
fields follow the data model of the spec: id, key, name, schema, type, sharing). -/
structure Thread where
  id : String
  key : String
  name : String
  schema : String
  type : String
  sharing : String
deriving DecidableEq, Repr

/-- A contact (peer identity), opaque to this client. -/
structure Contact where
  peerId : String
deriving DecidableEq, Repr

/-- HTTP method of a request. -/
inductive Method where
  | GET
  | POST
  | PUT
  | DELETE
deriving DecidableEq, Repr

/-- Modelled from the spec: an HTTP request as constructed by the transport
base primitives `sendGet`/`sendPost`/`sendPut`/`sendDelete` (missing file
`src/core/api.ts`): a method, a URL path, the path-argument array, the
query/form options, and an optional `Thread` JSON body. -/
structure Request where
  method : Method
  path : String
  args : List String
  opts : List (String × String)
  body : Option Thread
deriving DecidableEq, Repr

/-- Modelled from the spec: a daemon response, carrying the HTTP status code
and the possible JSON payloads the client parses (a `Thread`, a `ThreadList`
as `items`, or a `ContactList` as `contacts`). -/
structure Response where
  status : Nat
  thread : Thread
  items : List Thread
  contacts : List Contact
deriving DecidableEq, Repr

/-- Modelled from the spec: the HTTP transport maps each issued request to the
response of the daemon. -/
def Transport : Type := Request → Response

/-- A GET request to a path (no args, opts or body), as `sendGet(path)`. -/
def getRequest (path : String) : Request :=
  { method := Method.GET, path := path, args := [], opts := [], body := Option.none }

/-- A DELETE request to a path, as `sendDelete(path)`. -/
def deleteRequest (path : String) : Request :=
  { method := Method.DELETE, path := path, args := [], opts := [], body := Option.none }

/-- A PUT request to a path with no args, opts or body, as `sendPut(path)`. -/
def putRequest (path : String) : Request :=
  { method := Method.PUT, path := path, args := [], opts := [], body := Option.none }

/-- JavaScript `x || d` for an optional string `x`: `undefined` and the empty
string (the only falsy strings) fall back to the default `d`. -/
def jsOr (x : Option String) (d : String) : String :=
  match x with
  | Option.none => d
  | Option.some s => if s = "" then d else s

/-- JavaScript `s || d` for a plain string `s`. -/
def jsOrStr (s d : String) : String :=
  if s = "" then d else s

/-- An opaque structural schema object (the client never inspects it). -/
structure SchemaObject where
  data : String
deriving DecidableEq, Repr

/-- A call made to the `Schemas` sibling client module. -/
inductive SchemaCall where
  | add (s : SchemaObject)
  | defaultByName (name : String)
deriving DecidableEq, Repr

/-- Modelled from the spec: the SchemasClient collaborator (missing file
`src/modules/schemas.ts`).  `addHash s` is the content hash returned by its
add operation on `s`; `defaultByName n` is the known default schema object
named `n`, if any. -/
structure SchemasEnv where
  addHash : SchemaObject → String
  defaultByName : String → Option SchemaObject

/-- The `schema` argument of `Threads.add`: absent, a structural object, or a
string. -/
inductive SchemaArg where
  | none
  | obj (s : SchemaObject)
  | str (s : String)
deriving DecidableEq, Repr

/-- The schema-resolution block at the top of `Threads.add`
(threads.ts lines 53–69).  JavaScript truthiness is mirrored exactly:
the first branch guard (schema truthy and of object type) selects `obj`; the
second branch guard (schema truthy and of string type) requires a non-empty
string.
Returns the resulting `targetSchema` (possibly `undefined`) and the calls made
to the SchemasClient, in order. -/
def resolveTargetSchema (env : SchemasEnv) : SchemaArg → Option String × List SchemaCall
  | SchemaArg.none => (Option.none, [])
  | SchemaArg.obj o => (Option.some (env.addHash o), [SchemaCall.add o])
  | SchemaArg.str s =>
    if s = "" then
      (Option.none, [])
    else
      match env.defaultByName s with
      | Option.some known =>
          (Option.some (env.addHash known), [SchemaCall.defaultByName s, SchemaCall.add known])
      | Option.none => (Option.some s, [SchemaCall.defaultByName s])

namespace Threads

/-- `Threads.add` (threads.ts lines 52–82): resolve the schema, then
`POST threads` with path arg `[name]` and options
`schema/key/type/sharing/whitelist` (whitelist comma-joined), returning the
parsed `Thread` plus the HTTP requests and SchemasClient calls it issued. -/
def add (env : SchemasEnv) (tr : Transport) (name : String) (schema : SchemaArg)
    (key : Option String) (type : Option String) (sharing : Option String)
    (whitelist : Option (List String)) : Thread × List Request × List SchemaCall :=
  let resolved := resolveTargetSchema env schema
  let req : Request :=
    { method := Method.POST
      path := "threads"
      args := [name]
      opts := [("schema", jsOr resolved.1 ""),
               ("key", jsOr key ""),
               ("type", jsOr type "private"),
               ("sharing", jsOr sharing "not_shared"),
               ("whitelist", String.intercalate "," (whitelist.getD []))]
      body := Option.none }
  ((tr req).thread, [req], resolved.2)

/-- `Threads.addOrUpdate` (threads.ts lines 90–92): `PUT threads/{thread}`
with `info` as body; the response is not awaited, the method returns `unit`. -/
def addOrUpdate (tr : Transport) (thread : String) (info : Thread) :
    Unit × List Request :=
  let req : Request :=
    { method := Method.PUT, path := "threads/" ++ thread, args := [], opts := [],
      body := Option.some info }
  let _ := tr req
  ((), [req])

/-- `Threads.get` (threads.ts lines 100–103): `GET threads/{thread}`, parse a
`Thread`. -/
def get (tr : Transport) (thread : String) : Thread × List Request :=
  let req := getRequest ("threads/" ++ thread)
  ((tr req).thread, [req])

/-- `Threads.getByKey` (threads.ts lines 111–116): `GET threads`, then
`threads.items.find(t => t.key === key)`. -/
def getByKey (tr : Transport) (key : String) : Option Thread × List Request :=
  let req := getRequest "threads"
  let threads := (tr req).items
  (threads.find? (fun thread => thread.key == key), [req])

/-- `Threads.getByName` (threads.ts lines 123–128): `GET threads`, then
`threads.items.filter(t => t.name === name)`. -/
def getByName (tr : Transport) (name : String) : List Thread × List Request :=
  let req := getRequest "threads"
  let threads := (tr req).items
  (threads.filter (fun thread => thread.name == name), [req])

/-- `Threads.list` (threads.ts lines 135–138): `GET threads`, parse the list. -/
def list (tr : Transport) : List Thread × List Request :=
  let req := getRequest "threads"
  ((tr req).items, [req])

/-- `Threads.remove` (threads.ts lines 146–149): `DELETE threads/{thread}`,
return `response.status === 204`. -/
def remove (tr : Transport) (thread : String) : Bool × List Request :=
  let req := deleteRequest ("threads/" ++ thread)
  ((tr req).status == 204, [req])

/-- `Threads.removeByKey` (threads.ts lines 157–164): resolve via `getByKey`;
if absent return `false`, else `DELETE threads/{thread.id}` and return
`response.status === 204`. -/
def removeByKey (tr : Transport) (key : String) : Bool × List Request :=
  let found := getByKey tr key
  match found.1 with
  | Option.none => (false, found.2)
  | Option.some thread =>
    let req := deleteRequest ("threads/" ++ thread.id)
    ((tr req).status == 204, found.2 ++ [req])

/-- `Threads.rename` (threads.ts lines 174–177): `sendPut` to
`threads/{thread}/name` with no args, opts or body; return
`response.status === 204`.  The `name` parameter is accepted but unused,
exactly as in the source. -/
def rename (tr : Transport) (thread : String) (name : String) : Bool × List Request :=
  let req := putRequest ("threads/" ++ thread ++ "/name")
  ((tr req).status == 204, [req])

/-- `Threads.peers` (threads.ts lines 185–188):
GET to threads/{thread-or-default}/peers, where a falsy (empty) thread
argument falls back to the literal string default; parse a `ContactList`. -/
def peers (tr : Transport) (thread : String) : List Contact × List Request :=
  let req := getRequest ("threads/" ++ jsOrStr thread "default" ++ "/peers")
  ((tr req).contacts, [req])

end Threads

/-- The thread list the daemon returns for `GET threads` under transport
`tr` — the list every `getByKey`/`getByName`/`removeByKey` scan works on. -/
def listedThreads (tr : Transport) : List Thread :=
  (tr (getRequest "threads")).items

/-! ### Helper lemmas on list scans -/

/-- If `find?` succeeds, the list splits at the found element and every
earlier element fails the predicate. -/
theorem find_first_decomp {α : Type} (p : α → Bool) (l : List α) (t : α)
    (h : l.find? p = Option.some t) :
    p t = true ∧ ∃ l1 l2, l = l1 ++ t :: l2 ∧ ∀ u ∈ l1, p u = false := by
  induction l with
  | nil => simp at h
  | cons a as ih =>
    cases hpa : p a with
    | true =>
      rw [List.find?_cons_of_pos _ hpa] at h
      injection h with h
      subst h
      exact ⟨hpa, [], as, rfl, by simp⟩
    | false =>
      rw [List.find?_cons_of_neg _ (by simp [hpa])] at h
      obtain ⟨hpt, l1, l2, hl, hf⟩ := ih h
      subst hl
      refine ⟨hpt, a :: l1, l2, rfl, ?_⟩
      intro u hu
      rcases List.mem_cons.mp hu with h1 | h1
      · subst h1; exact hpa
      · exact hf u h1

/-- Conversely, `find?` returns the head of the first satisfying suffix. -/
theorem find_of_first {α : Type} (p : α → Bool) (l1 : List α) (t : α) (l2 : List α)
    (h1 : ∀ u ∈ l1, p u = false) (ht : p t = true) :
    (l1 ++ t :: l2).find? p = Option.some t := by
  induction l1 with
  | nil => simpa using List.find?_cons_of_pos l2 ht
  | cons a as ih =>
    have ha : p a = false := h1 a (List.mem_cons_self a as)
    rw [List.cons_append, List.find?_cons_of_neg _ (by simp [ha])]
    exact ih fun u hu => h1 u (List.mem_cons_of_mem a hu)

/-- `jsOr (some s) ""` is `s` itself, whether or not `s` is empty. -/
theorem jsOr_some_empty (s : String) : jsOr (Option.some s) "" = s := by
  unfold jsOr
  split <;> simp_all

/-! ### Sample daemon environments used by the witnesses -/

def sampleThread1 : Thread :=
  { id := "id1", key := "k1", name := "alice", schema := "",
    type := "private", sharing := "not_shared" }

def sampleThread2 : Thread :=
  { id := "id2", key := "k2", name := "alice", schema := "h",
    type := "open", sharing := "shared" }

def sampleResponse : Response :=
  { status := 204, thread := sampleThread1,
    items := [sampleThread1, sampleThread2], contacts := [] }

/-- A transport whose daemon answers every request with status 204 and a
two-thread list. -/
def sampleTransport : Transport := fun _ => sampleResponse

/-- A transport whose daemon answers every request with status 404 and an
empty thread list. -/
def emptyTransport : Transport := fun _ =>
  { status := 404, thread := sampleThread1, items := [], contacts := [] }

def sampleSchemaObject : SchemaObject := { data := "obj" }

/-- A SchemasClient model knowing exactly one default schema, named media,
and hashing every object to HASH. -/
def sampleEnv : SchemasEnv :=
  { addHash := fun _ => "HASH"
    defaultByName := fun n =>
      if n = "media" then Option.some sampleSchemaObject else Option.none }

/-- The POST request `add` sends for a given resolved schema value. -/
def addPost (name schemaValue : String) (key ty sh : Option String)
    (wl : Option (List String)) : Request :=
  { method := Method.POST
    path := "threads"
    args := [name]
    opts := [("schema", schemaValue), ("key", jsOr key ""),
             ("type", jsOr ty "private"), ("sharing", jsOr sh "not_shared"),
             ("whitelist", String.intercalate "," (wl.getD []))]
    body := Option.none }

/-! ### Claim theorems -/

/-- C1: for every thread id and every name argument, `rename(thread, name)`
issues a single PUT request to threads/{thread}/name carrying no path
argument, no query field and no body, and the entire behavior of the call is
identical for any two name values: the new name is never transmitted. -/
theorem rename_single_put_ignores_name (tr : Transport) (thread n1 n2 : String) :
    (Threads.rename tr thread n1).2 = [putRequest ("threads/" ++ thread ++ "/name")] ∧
    Threads.rename tr thread n1 = Threads.rename tr thread n2 :=
  ⟨rfl, rfl⟩

/-- C3: `add(name)` with schema, key, type, sharing and whitelist all omitted
issues a POST to threads whose payload has schema, key and whitelist empty,
type private and sharing not_shared, and performs no schema-resolution
call. -/
theorem add_all_defaults (env : SchemasEnv) (tr : Transport) (name : String) :
    (Threads.add env tr name SchemaArg.none Option.none Option.none Option.none
        Option.none).2 =
      ([{ method := Method.POST, path := "threads", args := [name],
          opts := [("schema", ""), ("key", ""), ("type", "private"),
                   ("sharing", "not_shared"), ("whitelist", "")],
          body := Option.none }], []) :=
  rfl

/-- C8: `addOrUpdate(threadId, info)` issues exactly one PUT request to
threads/{threadId} with `info` as the full request body, and returns the same
empty result whatever the response of the transport is. -/
theorem addOrUpdate_fire_and_forget (tr1 tr2 : Transport) (thread : String)
    (info : Thread) :
    Threads.addOrUpdate tr1 thread info =
      ((), [{ method := Method.PUT, path := "threads/" ++ thread, args := [],
              opts := [], body := Option.some info }]) ∧
    Threads.addOrUpdate tr1 thread info = Threads.addOrUpdate tr2 thread info :=
  ⟨rfl, rfl⟩

/-- C9: `peers` substitutes the literal string default into the path when its
thread argument is falsy (the empty string), and the argument itself when it
is truthy (non-empty). -/
theorem peers_default_on_falsy (tr : Transport) (thread : String) :
    (Threads.peers tr "").2 = [getRequest "threads/default/peers"] ∧
    (thread ≠ "" →
      (Threads.peers tr thread).2 = [getRequest ("threads/" ++ thread ++ "/peers")]) := by
  refine ⟨rfl, fun h => ?_⟩
  simp [Threads.peers, jsOrStr, h]

/-- Witness for C9: at the concrete thread id abc the path uses the argument. -/
theorem peers_default_on_falsy_witness :
    (Threads.peers sampleTransport "abc").2 = [getRequest "threads/abc/peers"] :=
  (peers_default_on_falsy sampleTransport "abc").2 (by decide)

/-- C10: `add(name, straightEmpty)` with the empty string as schema argument
behaves exactly like `add(name)` with schema omitted — the full result
coincides, no schema-resolution call is made, and the schema field sent is the
empty string, so an empty-string schema is never treated as a content hash. -/
theorem add_empty_string_schema (env : SchemasEnv) (tr : Transport) (name : String)
    (key ty sh : Option String) (wl : Option (List String)) :
    Threads.add env tr name (SchemaArg.str "") key ty sh wl =
      Threads.add env tr name SchemaArg.none key ty sh wl ∧
    (Threads.add env tr name (SchemaArg.str "") key ty sh wl).2.2 = [] ∧
    (Threads.add env tr name (SchemaArg.str "") key ty sh wl).2.1 =
      [addPost name "" key ty sh wl] :=
  ⟨rfl, rfl, rfl⟩

/-- C6: `getByKey(key)` returns the first item in list order of the thread
list answered to GET threads whose key field equals the argument, and returns
undefined (none) when no item matches. -/
theorem getByKey_first_match (tr : Transport) (k : String) :
    ((Threads.getByKey tr k).1 = Option.none ↔
      ∀ t ∈ listedThreads tr, t.key ≠ k) ∧
    (∀ t, (Threads.getByKey tr k).1 = Option.some t →
      t.key = k ∧ ∃ l1 l2, listedThreads tr = l1 ++ t :: l2 ∧
        ∀ u ∈ l1, u.key ≠ k) := by
  constructor
  · show (listedThreads tr).find? (fun t => t.key == k) = Option.none ↔ _
    rw [List.find?_eq_none]
    simp
  · intro t ht
    have ht2 : (listedThreads tr).find? (fun t => t.key == k) = Option.some t := ht
    obtain ⟨hpt, l1, l2, hl, hf⟩ :=
      find_first_decomp (fun t => t.key == k) (listedThreads tr) t ht2
    refine ⟨by simpa using hpt, l1, l2, hl, fun u hu => by simpa using hf u hu⟩

/-- Witness for C6: on the sample daemon, key k2 resolves to the second
thread, with the first thread the only earlier item and its key differing. -/
theorem getByKey_first_match_witness :
    sampleThread2.key = "k2" ∧
    ∃ l1 l2, listedThreads sampleTransport = l1 ++ sampleThread2 :: l2 ∧
      ∀ u ∈ l1, u.key ≠ "k2" :=
  (getByKey_first_match sampleTransport "k2").2 sampleThread2 rfl

/-- C7: `getByName(name)` returns exactly the items of the thread list whose
name field equals the argument — a sublist of the response (so the relative
order is preserved) containing every matching item with its exact
multiplicity — and the empty sequence when no item matches. -/
theorem getByName_exact_matches (tr : Transport) (n : String) :
    List.Sublist (Threads.getByName tr n).1 (listedThreads tr) ∧
    (∀ t ∈ (Threads.getByName tr n).1, t.name = n) ∧
    (∀ t ∈ listedThreads tr, t.name = n → t ∈ (Threads.getByName tr n).1) ∧
    (∀ t, t.name = n →
      List.count t (Threads.getByName tr n).1 = List.count t (listedThreads tr)) ∧
    ((∀ t ∈ listedThreads tr, t.name ≠ n) → (Threads.getByName tr n).1 = []) := by
  have hdef : (Threads.getByName tr n).1 =
      (listedThreads tr).filter (fun t => t.name == n) := rfl
  rw [hdef]
  refine ⟨List.filter_sublist _, ?_, ?_, ?_, ?_⟩
  · intro t ht
    simpa using (List.mem_filter.mp ht).2
  · intro t ht hn
    exact List.mem_filter.mpr ⟨ht, by simpa using hn⟩
  · intro t hn
    induction listedThreads tr with
    | nil => rfl
    | cons a as ih =>
      by_cases ha : a.name = n
      · rw [List.filter_cons_of_pos (by simpa using ha)]
        by_cases hat : a = t
        · subst hat
          simp [List.count_cons_self, ih]
        · rw [List.count_cons_of_ne (fun h => hat h.symm),
            List.count_cons_of_ne (fun h => hat h.symm), ih]
      · rw [List.filter_cons_of_neg (by simpa using ha)]
        have hat : a ≠ t := fun h => ha (h ▸ hn)
        rw [List.count_cons_of_ne (fun h => hat h.symm), ih]
  · intro h
    rw [List.filter_eq_nil_iff]
    intro t ht
    simpa using h t ht

/-- Witness for C7: on the sample daemon both threads are named alice, so the
matches for alice have the same counts as the full list, and a name that
occurs nowhere yields the empty sequence. -/
theorem getByName_exact_matches_witness :
    List.count sampleThread1 (Threads.getByName sampleTransport "alice").1 =
      List.count sampleThread1 (listedThreads sampleTransport) ∧
    (Threads.getByName sampleTransport "nobody").1 = [] :=
  ⟨(getByName_exact_matches sampleTransport "alice").2.2.2.1 sampleThread1 rfl,
   (getByName_exact_matches sampleTransport "nobody").2.2.2.2 (by decide)⟩

/-- C4: `remove` and `rename` return true iff the status of the underlying
DELETE/PUT response is exactly 204 (any other status, for instance 404 or 500,
yields false rather than an error), and so does `removeByKey` for its DELETE
response whenever a matching thread was found; when none is found it returns
false. -/
theorem boolean_status_204 (tr : Transport) (thread k n : String) :
    ((Threads.remove tr thread).1 = true ↔
      (tr (deleteRequest ("threads/" ++ thread))).status = 204) ∧
    ((Threads.rename tr thread n).1 = true ↔
      (tr (putRequest ("threads/" ++ thread ++ "/name"))).status = 204) ∧
    (∀ t, (Threads.getByKey tr k).1 = Option.some t →
      ((Threads.removeByKey tr k).1 = true ↔
        (tr (deleteRequest ("threads/" ++ t.id))).status = 204)) ∧
    ((Threads.getByKey tr k).1 = Option.none →
      (Threads.removeByKey tr k).1 = false) := by
  refine ⟨by simp [Threads.remove], by simp [Threads.rename], fun t ht => ?_,
    fun ht => ?_⟩
  · simp [Threads.removeByKey, ht]
  · simp [Threads.removeByKey, ht]

/-- Witness for C4: on the all-204 sample daemon `removeByKey` of the present
key k2 returns true, and on the empty daemon (status 404, no threads) it
returns false. -/
theorem boolean_status_204_witness :
    (Threads.removeByKey sampleTransport "k2").1 = true ∧
    (Threads.removeByKey emptyTransport "k2").1 = false :=
  ⟨((boolean_status_204 sampleTransport "x" "k2" "y").2.2.1 sampleThread2 rfl).mpr rfl,
   (boolean_status_204 emptyTransport "x" "k2" "y").2.2.2 rfl⟩

/-- C5: when the thread list answered to GET threads contains no item whose
key equals the argument, `removeByKey` returns false and issues no DELETE
(its trace is the single GET of the list); otherwise it issues exactly one
DELETE to threads/{id} where id is the id of the first matching item. -/
theorem removeByKey_requests (tr : Transport) (k : String) :
    ((∀ t ∈ listedThreads tr, t.key ≠ k) →
      Threads.removeByKey tr k = (false, [getRequest "threads"])) ∧
    (∀ l1 t l2, listedThreads tr = l1 ++ t :: l2 → t.key = k →
      (∀ u ∈ l1, u.key ≠ k) →
      (Threads.removeByKey tr k).2 =
        [getRequest "threads", deleteRequest ("threads/" ++ t.id)]) := by
  constructor
  · intro h
    have hnone : (Threads.getByKey tr k).1 = Option.none := by
      show (listedThreads tr).find? (fun t => t.key == k) = Option.none
      rw [List.find?_eq_none]
      simpa using h
    simp [Threads.removeByKey, hnone]
    rfl
  · intro l1 t l2 hl htk hf
    have hsome : (Threads.getByKey tr k).1 = Option.some t := by
      show (listedThreads tr).find? (fun t => t.key == k) = Option.some t
      rw [hl]
      exact find_of_first _ l1 t l2 (fun u hu => by simpa using hf u hu)
        (by simpa using htk)
    simp [Threads.removeByKey, hsome]
    rfl

/-- Witness for C5: the empty daemon yields false with only the GET issued,
and on the sample daemon the key k1 of the head thread leads to one DELETE
aimed at its id. -/
theorem removeByKey_requests_witness :
    Threads.removeByKey emptyTransport "k1" = (false, [getRequest "threads"]) ∧
    (Threads.removeByKey sampleTransport "k1").2 =
      [getRequest "threads", deleteRequest ("threads/" ++ sampleThread1.id)] :=
  ⟨(removeByKey_requests emptyTransport "k1").1 (by decide),
   (removeByKey_requests sampleTransport "k1").2 [] sampleThread1 [sampleThread2]
     rfl rfl (by decide)⟩

/-- C2: `add` follows the three-way schema resolution: an object schema is
submitted exactly once via the add operation of the SchemasClient and the
returned hash is the submitted schema value; a non-empty string naming a known
default schema leads to that default being added and its returned hash used; a
non-empty string matching no known default is passed through unchanged as the
schema value, with no length or format validation. -/
theorem add_schema_resolution (env : SchemasEnv) (tr : Transport) (name : String)
    (key ty sh : Option String) (wl : Option (List String)) :
    (∀ o, (Threads.add env tr name (SchemaArg.obj o) key ty sh wl).2 =
      ([addPost name (env.addHash o) key ty sh wl], [SchemaCall.add o])) ∧
    (∀ s d, s ≠ "" → env.defaultByName s = Option.some d →
      (Threads.add env tr name (SchemaArg.str s) key ty sh wl).2 =
        ([addPost name (env.addHash d) key ty sh wl],
         [SchemaCall.defaultByName s, SchemaCall.add d])) ∧
    (∀ s, s ≠ "" → env.defaultByName s = Option.none →
      (Threads.add env tr name (SchemaArg.str s) key ty sh wl).2 =
        ([addPost name s key ty sh wl], [SchemaCall.defaultByName s])) := by
  refine ⟨fun o => ?_, fun s d hs hd => ?_, fun s hs hd => ?_⟩
  · simp [Threads.add, resolveTargetSchema, addPost, jsOr_some_empty]
  · simp [Threads.add, resolveTargetSchema, hs, hd, addPost, jsOr_some_empty]
  · simp [Threads.add, resolveTargetSchema, hs, hd, addPost, jsOr_some_empty]

/-- Witness for C2: with the sample SchemasClient, the known default name
media resolves to the hash HASH through two collaborator calls, and the
unknown string QmX is passed through with one lookup call. -/
theorem add_schema_resolution_witness :
    (Threads.add sampleEnv sampleTransport "t" (SchemaArg.str "media") Option.none
        Option.none Option.none Option.none).2 =
      ([addPost "t" "HASH" Option.none Option.none Option.none Option.none],
       [SchemaCall.defaultByName "media", SchemaCall.add sampleSchemaObject]) ∧
    (Threads.add sampleEnv sampleTransport "t" (SchemaArg.str "QmX") Option.none
        Option.none Option.none Option.none).2 =
      ([addPost "t" "QmX" Option.none Option.none Option.none Option.none],
       [SchemaCall.defaultByName "QmX"]) :=
  ⟨(add_schema_resolution sampleEnv sampleTransport "t" Option.none Option.none
      Option.none Option.none).2.1 "media" sampleSchemaObject (by decide) (by decide),
   (add_schema_resolution sampleEnv sampleTransport "t" Option.none Option.none
      Option.none Option.none).2.2 "QmX" (by decide) (by decide)⟩
